import Mathlib

/-!
Shallow embedding of the subscription / billing / delivery engine of the
project-tuple repository.  The data model is translated from the Mongoose
schemas in src/models/index.js; the operations are translated from
src/controllers/manager.controller.js, the customer controller
(src/unnamed/part_003) and the deliverer controller (src/unnamed/part_002).
Money values and quantities (JS numbers) are modelled as rationals, and
identifiers (Mongo ObjectIds) as naturals.  Random id / receipt suffixes,
delivery preferences and free-text fields that no claim touches are elided
or threaded as parameters.
-/

/-- Subscription.status enum (src/models/index.js:86-90). -/
inductive SubStatus
  | Active | Paused | Cancelled | Suspended
  deriving DecidableEq, Repr

/-- SubscriptionChangeRequest.status enum (src/models/index.js:131-135). -/
inductive ReqStatus
  | Pending | Approved | Rejected
  deriving DecidableEq, Repr

/-- SubscriptionChangeRequest.requestType enum (src/models/index.js:109-113). -/
inductive ReqType
  | New | Update | Cancel
  deriving DecidableEq, Repr

/-- Bill.status enum (src/models/index.js:248-252). -/
inductive BillStatus
  | Unpaid | PartiallyPaid | Paid | Overdue
  deriving DecidableEq, Repr

/-- DeliveryItem.status enum (src/models/index.js:228-232). -/
inductive ItemStatus
  | Pending | Delivered | Failed | Skipped
  deriving DecidableEq, Repr

/-- DeliverySchedule.status enum (src/models/index.js:206-210). -/
inductive SchedStatus
  | Pending | InProgress | Completed
  deriving DecidableEq, Repr

/-- DelivererPayment.status enum. -/
inductive PayStatus
  | Pending | Paid
  deriving DecidableEq, Repr

/-- Typed failures of the HTTP handlers: 404, 403, 400 and 500 responses. -/
inductive HErr
  | notFound | forbidden | badRequest | internal
  deriving DecidableEq, Repr

/-- A calendar date as produced by the JS Date constructor: `month` is the
JS zero-based month index (0 = January, ..., 11 = December). -/
structure JsDate where
  year : Int
  month : Int
  day : Int
  deriving DecidableEq, Repr

def isLeapYear (y : Int) : Bool :=
  (y % 4 == 0 && y % 100 != 0) || y % 400 == 0

/-- Number of days of zero-based month `m` of year `y`. -/
def daysInMonth (y m : Int) : Int :=
  if m = 1 then (if isLeapYear y then 29 else 28)
  else if m = 3 ∨ m = 5 ∨ m = 8 ∨ m = 10 then 30
  else 31

/-- `jsDate y m d` models the JS expression `new Date(y, m, d)` for the day
arguments the repository actually uses (1, 15, and 0, where day 0 denotes
the last day of the previous month); the month argument is normalised into
the year exactly as JS does. -/
def jsDate (y m d : Int) : JsDate :=
  let y1 := y + Int.fdiv m 12
  let m1 := Int.fmod m 12
  if d = 0 then
    (if m1 = 0 then ⟨y1 - 1, 11, daysInMonth (y1 - 1) 11⟩
     else ⟨y1, m1 - 1, daysInMonth y1 (m1 - 1)⟩)
  else ⟨y1, m1, d⟩

/-- Chronological comparison of two dates. -/
def dateLe (a b : JsDate) : Bool :=
  a.year < b.year ||
    (a.year == b.year &&
      (a.month < b.month || (a.month == b.month && a.day ≤ b.day)))

/-- Publication document, restricted to the fields the modelled operations
read (src/models/index.js:58-77). -/
structure PubRec where
  id : Nat
  price : ℚ
  isActive : Bool
  deriving DecidableEq, Repr

/-- Address document (src/models/index.js:43-55). -/
structure AddressRec where
  id : Nat
  userId : Nat
  areaId : Nat
  isActive : Bool
  deriving DecidableEq, Repr

/-- Subscription document (src/models/index.js:80-101), carrying in `price`
the price of the referenced publication (the populated view used by the
billing and scheduling code). -/
structure SubRec where
  id : Nat
  userId : Nat
  publicationId : Nat
  price : ℚ
  quantity : ℚ
  startDate : Option Int
  endDate : Option Int
  addressId : Nat
  areaId : Nat
  status : SubStatus
  deriving DecidableEq, Repr

/-- SubscriptionChangeRequest document (src/models/index.js:103-151);
deliveryPreferences are elided (no claim concerns them). -/
structure ChangeReq where
  id : Nat
  userId : Nat
  requestType : ReqType
  subscriptionId : Option Nat
  publicationId : Option Nat
  newQuantity : Option ℚ
  newAddressId : Option Nat
  effectiveDate : Int
  status : ReqStatus
  processedBy : Option Nat
  processedDate : Option Int
  comments : Option String
  deriving DecidableEq, Repr

/-- Area document (src/models/index.js:27-39). -/
structure AreaRec where
  id : Nat
  managers : List Nat
  publications : List Nat
  deriving DecidableEq, Repr

/-- DeliveryPersonnel document (src/models/index.js:162-178). -/
structure PersonnelRec where
  id : Nat
  areasAssigned : List Nat
  isActive : Bool
  commissionRate : ℚ
  deriving DecidableEq, Repr

/-- DeliveryRoute document (src/models/index.js:180-193). -/
structure RouteRec where
  id : Nat
  areaId : Nat
  personnelId : Nat
  isActive : Bool
  deriving DecidableEq, Repr

/-- DeliverySchedule document (src/models/index.js:203-219). -/
structure ScheduleRec where
  id : Nat
  personnelId : Nat
  routeId : Nat
  areaId : Nat
  date : JsDate
  notes : Option String
  status : SchedStatus
  deriving DecidableEq, Repr

/-- DeliveryItem document (src/models/index.js:222-236), carrying in
`price` the price of the referenced publication (the populated view).
Note the schema links the item to its schedule only through `scheduleId`;
there is no embedded `schedule` subdocument. -/
structure DeliveryItemDoc where
  id : Nat
  scheduleId : Nat
  subscriptionId : Nat
  addressId : Nat
  publicationId : Nat
  price : ℚ
  quantity : ℚ
  status : ItemStatus
  deliveryTime : Option JsDate
  deliveryNotes : Option String
  deriving DecidableEq, Repr

/-- BillItem document (src/models/index.js, BillItem schema). -/
structure BillItemRec where
  publicationId : Nat
  quantity : ℚ
  unitPrice : ℚ
  totalPrice : ℚ
  periodFrom : JsDate
  periodTo : JsDate
  deriving DecidableEq, Repr

/-- Bill document (src/models/index.js:241-258) together with its bill
items, mirroring the temporary object built by generateBills before the
Bill and BillItem collections are written.  The random billNumber suffix
is elided (no claim depends on it). -/
structure BillRec where
  id : Nat
  userId : Nat
  areaId : Nat
  billMonth : Int
  billYear : Int
  totalAmount : ℚ
  outstandingAmount : ℚ
  dueDate : JsDate
  status : BillStatus
  billItems : List BillItemRec
  deriving DecidableEq, Repr

/-- Payment document created by makePayment (src/unnamed/part_003:426-437);
the receipt number RCP concatenated with Date.now() is modelled by the
numeric timestamp. -/
structure PaymentRec where
  billId : Nat
  userId : Nat
  amount : ℚ
  paymentMethod : String
  receiptNumber : Nat
  deriving DecidableEq, Repr

/-- DelivererPayment document created by processDelivererPayments. -/
structure DelivererPaymentRec where
  personnelId : Nat
  paymentMonth : Int
  paymentYear : Int
  amount : ℚ
  commissionRate : ℚ
  status : PayStatus
  paymentMethod : String
  deriving DecidableEq, Repr

/-- The authoritative data store: one list per Mongo collection. -/
structure Db where
  areas : List AreaRec
  pubs : List PubRec
  addresses : List AddressRec
  subs : List SubRec
  requests : List ChangeReq
  personnel : List PersonnelRec
  routes : List RouteRec
  schedules : List ScheduleRec
  items : List DeliveryItemDoc
  bills : List BillRec
  payments : List PaymentRec
  delivererPayments : List DelivererPaymentRec
  deriving DecidableEq, Repr

def Db.empty : Db :=
  ⟨[], [], [], [], [], [], [], [], [], [], [], []⟩

/-! ## Billing Generator (src/controllers/manager.controller.js:1677-1778) -/

/-- The Mongo query of generateBills:
`Subscription.find(\x7b areaId: \x7b $in: areaIds \x7d, status: Active \x7d)`. -/
def billingScope (areaIds : List Nat) (subs : List SubRec) : List SubRec :=
  subs.filter (fun s => areaIds.contains s.areaId && s.status == SubStatus.Active)

/-- The areas of the acting manager:
`Area.find(\x7b managers: req.user.id \x7d)` mapped to ids. -/
def managerAreaIds (db : Db) (managerId : Nat) : List Nat :=
  (db.areas.filter (fun a => a.managers.contains managerId)).map (fun a => a.id)

/-- The grouping key of the billing run: the JS code keys its Map by the
string `userId-areaId`, i.e. by the (customer, area) pair. -/
def sameKey (b : BillRec) (s : SubRec) : Bool :=
  b.userId == s.userId && b.areaId == s.areaId

/-- The BillItem pushed for one subscription: unit price and quantity from
the populated subscription, totalPrice = price * quantity, deliveryPeriod
from `new Date(year, month - 1, 1)` to `new Date(year, month, 0)`. -/
def mkBillItem (month year : Int) (s : SubRec) : BillItemRec :=
  { publicationId := s.publicationId
    quantity := s.quantity
    unitPrice := s.price
    totalPrice := s.price * s.quantity
    periodFrom := jsDate year (month - 1) 1
    periodTo := jsDate year month 0 }

/-- The fresh bill object created for a (customer, area) group, with
`dueDate: new Date(year, month, 15)` exactly as in the source (the comment
there reads "Due on 15th of billing month").  The Mongo-assigned id and the
random billNumber suffix are elided. -/
def emptyBill (month year : Int) (s : SubRec) : BillRec :=
  { id := 0
    userId := s.userId
    areaId := s.areaId
    billMonth := month
    billYear := year
    totalAmount := 0
    outstandingAmount := 0
    dueDate := jsDate year month 15
    status := BillStatus.Unpaid
    billItems := [] }

/-- Accumulating one subscription into its bill: totalAmount and
outstandingAmount both grow by price * quantity and a BillItem is pushed. -/
def addToBill (month year : Int) (b : BillRec) (s : SubRec) : BillRec :=
  { b with
    totalAmount := b.totalAmount + s.price * s.quantity
    outstandingAmount := b.outstandingAmount + s.price * s.quantity
    billItems := b.billItems ++ [mkBillItem month year s] }

/-- One iteration of the generateBills loop: look the (customer, area) key
up in the Map (here: the accumulated list, whose keys are pairwise
distinct) and either extend the existing bill or push a fresh one. -/
def billStep (month year : Int) (bills : List BillRec) (s : SubRec) :
    List BillRec :=
  if bills.any (fun b => sameKey b s) then
    bills.map (fun b => if sameKey b s then addToBill month year b s else b)
  else
    bills ++ [addToBill month year (emptyBill month year s) s]

/-- The billing run over an explicit scope. -/
def generateBills (month year : Int) (areaIds : List Nat)
    (subs : List SubRec) : List BillRec :=
  (billingScope areaIds subs).foldl (billStep month year) []

/-- generateBills as invoked by a manager: the scope is the set of areas
that list the manager. -/
def generateBillsFor (db : Db) (managerId : Nat) (month year : Int) :
    List BillRec :=
  generateBills month year (managerAreaIds db managerId) db.subs

/-! ## Payment Reconciler (src/unnamed/part_003:406-459, makePayment) -/

/-- The bill update of makePayment:
`outstandingAmount = Math.max(0, outstandingAmount - amount)` followed by
`status = outstandingAmount === 0 ? Paid : Partially Paid` (reading the
freshly assigned outstanding amount). -/
def payBill (b : BillRec) (amount : ℚ) : BillRec :=
  let newOut := max 0 (b.outstandingAmount - amount)
  { b with
    outstandingAmount := newOut
    status := if newOut = 0 then BillStatus.Paid else BillStatus.PartiallyPaid }

/-- makePayment: find the bill by (billId, userId); 404 when absent;
otherwise append the Payment record and store the updated bill.  The
surrounding CustomerActivity log row is elided. -/
def makePayment (db : Db) (userId billId : Nat) (amount : ℚ)
    (paymentMethod : String) (now : Nat) : Except HErr Db :=
  match db.bills.find? (fun b => b.id == billId && b.userId == userId) with
  | none => .error .notFound
  | some _ =>
    let pay : PaymentRec :=
      { billId := billId, userId := userId, amount := amount
        paymentMethod := paymentMethod, receiptNumber := now }
    .ok { db with
          payments := db.payments ++ [pay]
          bills := db.bills.map (fun b =>
            if b.id == billId && b.userId == userId then payBill b amount
            else b) }

/-! ## Customer-side submitRequest (src/unnamed/part_003:92-200, createSubscription) -/

/-- createSubscription of the customer controller: after validating the
inputs it saves a Subscription whose status is the string Active (the
source line carries the comment "Valid enum value") and a Pending change
request of type New pointing at it; the CustomerActivity log row is
elided.  `placementGiven` models the truthiness check on
`deliveryPreferences.placement`; `now` is the clock reading and
`freshSubId` / `freshReqId` the Mongo-assigned ids. -/
def createSubscription (db : Db) (userId publicationId : Nat)
    (quantity : Int) (placementGiven : Bool) (addressId : Nat)
    (freshSubId freshReqId : Nat) (now : Int) :
    Except HErr (Db × SubRec × ChangeReq) :=
  if quantity ≤ 0 then .error .badRequest
  else if ¬ placementGiven then .error .badRequest
  else
    match db.pubs.find? (fun p => p.id == publicationId && p.isActive) with
    | none => .error .notFound
    | some pub =>
      match db.addresses.find?
          (fun a => a.id == addressId && a.userId == userId && a.isActive) with
      | none => .error .notFound
      | some addr =>
        let sub : SubRec :=
          { id := freshSubId, userId := userId, publicationId := pub.id
            price := pub.price, quantity := (quantity : ℚ)
            startDate := some now, endDate := none
            addressId := addr.id, areaId := addr.areaId
            status := SubStatus.Active }
        let req : ChangeReq :=
          { id := freshReqId, userId := userId, requestType := ReqType.New
            subscriptionId := some freshSubId
            publicationId := some pub.id
            newQuantity := some ((quantity : ℚ))
            newAddressId := some addr.id
            effectiveDate := now + 604800000
            status := ReqStatus.Pending
            processedBy := none, processedDate := none, comments := none }
        .ok ({ db with subs := db.subs ++ [sub], requests := db.requests ++ [req] },
             sub, req)

/-! ## Subscription Change decide operation
(src/controllers/manager.controller.js:1213-1376, handleSubscriptionRequest) -/

def findReq (db : Db) (rid : Nat) : Option ChangeReq :=
  db.requests.find? (fun r => r.id == rid)

/-- The populated view of an optional Subscription reference: the document
when the reference is set and resolvable, otherwise null. -/
def findSub (db : Db) (sid : Option Nat) : Option SubRec :=
  sid.bind (fun i => db.subs.find? (fun s => s.id == i))

def findAddr (db : Db) (aid : Option Nat) : Option AddressRec :=
  aid.bind (fun i => db.addresses.find? (fun a => a.id == i))

def findPub (db : Db) (pid : Option Nat) : Option PubRec :=
  pid.bind (fun i => db.pubs.find? (fun p => p.id == i))

/-- The area-authorization lookup of handleSubscriptionRequest.  For a New
request the query is an $or over the publication membership, the area of
the populated newAddressId and the area of the populated subscriptionId;
when a populated reference is null the optional chaining yields undefined
and mongoose strips the `_id: undefined` condition, leaving a clause that
matches every area, so only the `managers` condition remains.  Reading
`request.publicationId._id` on a null populated publication throws, which
the catch block answers with a 500.  For Update / Cancel the query is
`_id: request.subscriptionId?.areaId, managers: req.user.id`, again with
the `_id` condition stripped when the subscription is missing. -/
def decideArea (db : Db) (managerId : Nat) (req : ChangeReq) :
    Except HErr (Option AreaRec) :=
  if req.requestType = ReqType.New then
    match findPub db req.publicationId with
    | none => .error .internal
    | some pub =>
      .ok (db.areas.find? (fun a =>
        a.managers.contains managerId &&
          (a.publications.contains pub.id ||
            (match findAddr db req.newAddressId with
              | some ad => a.id == ad.areaId
              | none => true) ||
            (match findSub db req.subscriptionId with
              | some sd => a.id == sd.areaId
              | none => true))))
  else
    .ok (match findSub db req.subscriptionId with
      | some sd =>
        db.areas.find? (fun a => a.id == sd.areaId && a.managers.contains managerId)
      | none =>
        db.areas.find? (fun a => a.managers.contains managerId))

/-- request.save(): every request with the same id is replaced by the
updated document. -/
def replaceReq (reqs : List ChangeReq) (r1 : ChangeReq) : List ChangeReq :=
  reqs.map (fun r => if r.id == r1.id then r1 else r)

/-- subscription.save(): every subscription with the same id is replaced. -/
def replaceSub (subs : List SubRec) (s1 : SubRec) : List SubRec :=
  subs.map (fun s => if s.id == s1.id then s1 else s)

/-- handleSubscriptionRequest: load the request (404 when absent), resolve
the authorizing area (403 when none), stamp status / processedBy /
processedDate / comments onto the request, and when the decision is
Approved dispatch on the request type; every path runs inside one
transaction, so an error leaves the store untouched. -/
def handleSubscriptionRequest (db : Db) (managerId rid : Nat) (decision : ReqStatus)
    (comments : Option String) (now : Int) :
    Except HErr Db :=
  match findReq db rid with
  | none => .error .notFound
  | some req =>
    match decideArea db managerId req with
    | .error e => .error e
    | .ok none => .error .forbidden
    | .ok (some _area) =>
      let req1 : ChangeReq :=
        { req with status := decision, processedBy := some managerId
                   processedDate := some now, comments := comments }
      if decision = ReqStatus.Approved then
        match req.requestType with
        | ReqType.New =>
          -- when the populated newAddressId is missing the handler falls
          -- back to `await Address.findOne(...)` (manager.controller.js
          -- line 1280), but the Address model is never imported by this
          -- controller (its require block destructures RouteAddress, not
          -- Address), so evaluating the expression throws a ReferenceError;
          -- the catch block answers 500 and the transaction is aborted,
          -- and the 400 "No valid address found" return below it is dead
          match findAddr db req.newAddressId with
          | none => .error .internal
          | some ad =>
            let req2 : ChangeReq := { req1 with newAddressId := some ad.id }
            match findSub db req.subscriptionId with
            | some sub =>
              -- the request already owns a materialised subscription row
              let sub1 : SubRec :=
                { sub with status := SubStatus.Active
                           startDate := some req.effectiveDate }
              .ok { db with subs := replaceSub db.subs sub1
                            requests := replaceReq db.requests req2 }
            | none =>
              -- no resolvable subscription: the handler builds
              -- new Subscription(... status: the string Pending ...) and
              -- calls save, but Pending is not in the Subscription status
              -- enum (src/models/index.js:86-90) and the required startDate
              -- is not yet set, so mongoose rejects the save; the catch
              -- block answers 500 and the transaction is aborted
              .error .internal
        | ReqType.Update =>
          match findSub db req.subscriptionId with
          | none => .error .notFound
          | some sub =>
            let sub1 : SubRec :=
              { sub with
                quantity :=
                  (match req.newQuantity with
                    | some q => if q = 0 then sub.quantity else q
                    | none => sub.quantity)
                addressId :=
                  (match findAddr db req.newAddressId with
                    | some ad => ad.id
                    | none => sub.addressId) }
            .ok { db with subs := replaceSub db.subs sub1
                          requests := replaceReq db.requests req1 }
        | ReqType.Cancel =>
          -- findByIdAndUpdate on the populated reference: a null reference
          -- updates nothing and raises no error
          let subsNew :=
            match findSub db req.subscriptionId with
            | some sd =>
              db.subs.map (fun s =>
                if s.id == sd.id then
                  { s with status := SubStatus.Cancelled
                           endDate := some req.effectiveDate }
                else s)
            | none => db.subs
          .ok { db with subs := subsNew, requests := replaceReq db.requests req1 }
      else
        .ok { db with requests := replaceReq db.requests req1 }

/-- The transactional run of the handler: commitTransaction stores the new
state; abortTransaction leaves the store as it was. -/
def runHandleSubscriptionRequest (db : Db) (managerId rid : Nat) (decision : ReqStatus)
    (comments : Option String) (now : Int) : Db :=
  match handleSubscriptionRequest db managerId rid decision comments now with
  | .ok db2 => db2
  | .error _ => db

/-! ## Delivery Schedule Materializer
(src/controllers/manager.controller.js:1516-1634, createSchedule; this
transactional definition overwrites the earlier export at lines 432-462) -/

/-- The DeliveryItem rows materialised for a schedule: one per Active
subscription of the area, with `quantity: sub.quantity || 1` (a falsy,
i.e. zero, quantity is replaced by 1) and status Pending.  Mongo-assigned
item ids are elided as 0. -/
def scheduleItems (db : Db) (scheduleId areaId : Nat) : List DeliveryItemDoc :=
  (db.subs.filter
      (fun s => s.areaId == areaId && s.status == SubStatus.Active)).map
    (fun s =>
      { id := 0, scheduleId := scheduleId, subscriptionId := s.id
        addressId := s.addressId, publicationId := s.publicationId
        price := s.price
        quantity := (if s.quantity = (0 : ℚ) then (1 : ℚ) else s.quantity)
        status := ItemStatus.Pending
        deliveryTime := none, deliveryNotes := none })

/-- createSchedule: authorize the area to the manager (403), validate the
deliverer against the area (400) and the route against area and deliverer
(400), then inside one transaction insert the schedule (status Pending)
and one DeliveryItem per Active subscription of the area.  The required-
fields presence check on the request body is satisfied here by typing. -/
def createSchedule (db : Db) (managerId personnelId : Nat) (date : JsDate)
    (areaId routeId : Nat) (notes : Option String) (freshScheduleId : Nat) :
    Except HErr Db :=
  match db.areas.find?
      (fun a => a.id == areaId && a.managers.contains managerId) with
  | none => .error .forbidden
  | some _ =>
    match db.personnel.find?
        (fun p => p.id == personnelId && p.areasAssigned.contains areaId
          && p.isActive) with
    | none => .error .badRequest
    | some _ =>
      match db.routes.find?
          (fun r => r.id == routeId && r.areaId == areaId
            && r.personnelId == personnelId && r.isActive) with
      | none => .error .badRequest
      | some _ =>
        let sched : ScheduleRec :=
          { id := freshScheduleId, personnelId := personnelId
            routeId := routeId, areaId := areaId, date := date
            notes := notes, status := SchedStatus.Pending }
        .ok { db with
              schedules := db.schedules ++ [sched]
              items := db.items ++ scheduleItems db freshScheduleId areaId }

/-- The transactional run of createSchedule: an aborted transaction leaves
the store unchanged. -/
def runCreateSchedule (db : Db) (managerId personnelId : Nat) (date : JsDate)
    (areaId routeId : Nat) (notes : Option String) (freshScheduleId : Nat) :
    Db :=
  match createSchedule db managerId personnelId date areaId routeId notes
      freshScheduleId with
  | .ok db2 => db2
  | .error _ => db

/-! ## Deliverer status update (src/unnamed/part_002:115-149,
updateDeliveryStatus) -/

/-- updateDeliveryStatus: reject a body status outside Delivered / Failed /
Skipped (400), load the item (404), check the item belongs to a schedule
of the acting deliverer (403), then overwrite status, deliveryNotes and
deliveryTime.  The body status is an arbitrary string in the source;
strings outside the enum are rejected by the same inclusion check that
rejects Pending, so the Pending case models every invalid input. -/
def updateDeliveryStatus (db : Db) (personnelId itemId : Nat)
    (newStatus : ItemStatus) (notes : Option String) (now : JsDate) :
    Except HErr Db :=
  if newStatus = ItemStatus.Pending then .error .badRequest
  else
    match db.items.find? (fun it => it.id == itemId) with
    | none => .error .notFound
    | some item =>
      match db.schedules.find?
          (fun sc => sc.id == item.scheduleId
            && sc.personnelId == personnelId) with
      | none => .error .forbidden
      | some _ =>
        .ok { db with
              items := db.items.map (fun it =>
                if it.id == itemId then
                  { it with status := newStatus, deliveryNotes := notes
                            deliveryTime := some now }
                else it) }

/-! ## Deliverer Commission Calculator
(src/controllers/manager.controller.js:1987-2056, processDelivererPayments) -/

/-- The Mongo field path `schedule.personnelId` evaluated on a DeliveryItem
document, as used in the query
`DeliveryItem.find(\x7b schedule.personnelId: deliverer._id, ... \x7d)`.
The DeliveryItem schema (src/models/index.js:222-236) stores the schedule
reference under `scheduleId` and has no `schedule` field, so the path is
missing on every document and the equality condition holds for none. -/
def scheduleDotPersonnelId (_ : DeliveryItemDoc) : Option Nat :=
  none

/-- The Delivered items the commission query returns for one deliverer in
the period [year-month-01, year-month-lastDay]. -/
def commissionQuery (db : Db) (delivererId : Nat) (month year : Int) :
    List DeliveryItemDoc :=
  db.items.filter (fun it =>
    scheduleDotPersonnelId it == some delivererId
      && it.status == ItemStatus.Delivered
      && (match it.deliveryTime with
          | some t =>
            dateLe (jsDate year (month - 1) 1) t && dateLe t (jsDate year month 0)
          | none => false))

/-- processDelivererPayments: for every active deliverer assigned to one of
the areas of the manager and lacking a DelivererPayment for (month, year),
sum quantity * price * (commissionRate / 100) over the items returned by
the commission query and create a Pending payment. -/
def processDelivererPayments (db : Db) (managerId : Nat) (month year : Int) :
    List DelivererPaymentRec :=
  let areaIds := managerAreaIds db managerId
  let deliverers := db.personnel.filter (fun d =>
    d.areasAssigned.any (fun a => areaIds.contains a) && d.isActive)
  deliverers.filterMap (fun d =>
    if db.delivererPayments.any (fun p =>
        p.personnelId == d.id && p.paymentMonth == month
          && p.paymentYear == year) then
      none
    else
      let deliveries := commissionQuery db d.id month year
      let totalAmount :=
        (deliveries.map (fun it =>
          it.quantity * it.price * (d.commissionRate / 100))).sum
      some { personnelId := d.id, paymentMonth := month, paymentYear := year
             amount := totalAmount, commissionRate := d.commissionRate
             status := PayStatus.Pending, paymentMethod := "Bank Transfer" })

/-- The per-deliverer commission total that the code comment ("Calculate
deliveries and commission") and the join through scheduleId intend: sum
quantity * price * (commissionRate / 100) over the Delivered items of the
period whose schedule belongs to the deliverer. -/
def commissionViaScheduleJoin (db : Db) (delivererId : Nat)
    (commissionRate : ℚ) (month year : Int) : ℚ :=
  ((db.items.filter (fun it =>
    (db.schedules.any (fun sc =>
      sc.id == it.scheduleId && sc.personnelId == delivererId))
      && it.status == ItemStatus.Delivered
      && (match it.deliveryTime with
          | some t =>
            dateLe (jsDate year (month - 1) 1) t && dateLe t (jsDate year month 0)
          | none => false))).map
    (fun it => it.quantity * it.price * (commissionRate / 100))).sum

/-! ## Properties of the billing run -/

/-- No two bills of a run share the (customer, area) grouping key. -/
def billKeyDistinct (bills : List BillRec) : Prop :=
  List.Pairwise (fun b c => ¬ (b.userId = c.userId ∧ b.areaId = c.areaId)) bills

/-- The per-bill invariant of a billing run over the processed
subscriptions `done`: the bill items are exactly one item per processed
subscription of the (customer, area) group of the bill, in order, and the
monetary totals agree with the items. -/
def billInv (month year : Int) (done : List SubRec) (b : BillRec) : Prop :=
  b.billItems = (done.filter (fun s => sameKey b s)).map (mkBillItem month year)
    ∧ b.totalAmount = (b.billItems.map BillItemRec.totalPrice).sum
    ∧ b.outstandingAmount = b.totalAmount

/-- The loop invariant of generateBills. -/
def genInv (month year : Int) (done : List SubRec) (bills : List BillRec) :
    Prop :=
  (∀ b ∈ bills, billInv month year done b)
    ∧ billKeyDistinct bills
    ∧ (∀ s ∈ done, ∃ b ∈ bills, sameKey b s = true)

theorem sameKey_iff (b : BillRec) (s : SubRec) :
    sameKey b s = true ↔ (b.userId = s.userId ∧ b.areaId = s.areaId) := by
  simp [sameKey]

theorem sameKey_addToBill (m y : Int) (b : BillRec) (s t : SubRec) :
    sameKey (addToBill m y b s) t = sameKey b t := rfl

theorem addToBill_userId (m y : Int) (b : BillRec) (s : SubRec) :
    (addToBill m y b s).userId = b.userId := rfl

theorem addToBill_areaId (m y : Int) (b : BillRec) (s : SubRec) :
    (addToBill m y b s).areaId = b.areaId := rfl

theorem addToBill_billItems (m y : Int) (b : BillRec) (s : SubRec) :
    (addToBill m y b s).billItems = b.billItems ++ [mkBillItem m y s] := rfl

theorem addToBill_totalAmount (m y : Int) (b : BillRec) (s : SubRec) :
    (addToBill m y b s).totalAmount = b.totalAmount + s.price * s.quantity :=
  rfl

theorem addToBill_outstanding (m y : Int) (b : BillRec) (s : SubRec) :
    (addToBill m y b s).outstandingAmount =
      b.outstandingAmount + s.price * s.quantity := rfl

theorem mkBillItem_totalPrice (m y : Int) (s : SubRec) :
    (mkBillItem m y s).totalPrice = s.price * s.quantity := rfl

theorem billStepUpd_userId (m y : Int) (s : SubRec) (b : BillRec) :
    (if sameKey b s = true then addToBill m y b s else b).userId = b.userId := by
  split <;> rfl

theorem billStepUpd_areaId (m y : Int) (s : SubRec) (b : BillRec) :
    (if sameKey b s = true then addToBill m y b s else b).areaId = b.areaId := by
  split <;> rfl

/-- One loop iteration of generateBills preserves the invariant, the
processed subscription being appended to `done`. -/
theorem genInv_step (m y : Int) (done : List SubRec) (bills : List BillRec)
    (s : SubRec) (h : genInv m y done bills) :
    genInv m y (done ++ [s]) (billStep m y bills s) := by
  obtain ⟨hinv, hdis, hcomp⟩ := h
  unfold billStep
  by_cases hany : (bills.any fun b => sameKey b s) = true
  · rw [if_pos hany]
    refine ⟨?_, ?_, ?_⟩
    · intro b' hb'
      obtain ⟨b, hb, rfl⟩ := List.mem_map.mp hb'
      obtain ⟨hitems, htot, hout⟩ := hinv b hb
      by_cases hk : sameKey b s = true
      · rw [if_pos hk]
        refine ⟨?_, ?_, ?_⟩
        · simp only [sameKey_addToBill, addToBill_billItems, hitems,
            List.filter_append, List.map_append, List.filter_cons,
            List.filter_nil, hk, if_pos, List.map_cons, List.map_nil]
        · simp only [addToBill_totalAmount, addToBill_billItems, htot,
            List.map_append, List.sum_append, List.map_cons, List.map_nil,
            List.sum_cons, List.sum_nil, mkBillItem_totalPrice, add_zero]
        · simp only [addToBill_outstanding, addToBill_totalAmount, hout]
      · rw [if_neg hk]
        refine ⟨?_, htot, hout⟩
        simp only [List.filter_append, List.filter_cons, List.filter_nil,
          hk, Bool.false_eq_true, if_false, List.append_nil, hitems]
    · refine List.Pairwise.map _ ?_ hdis
      intro a c hac hkey
      apply hac
      rwa [billStepUpd_userId, billStepUpd_userId, billStepUpd_areaId,
        billStepUpd_areaId] at hkey
    · intro t ht
      rcases List.mem_append.mp ht with ht' | ht'
      · obtain ⟨b, hb, hk⟩ := hcomp t ht'
        refine ⟨_, List.mem_map_of_mem _ hb, ?_⟩
        by_cases hks : sameKey b s = true
        · rwa [if_pos hks, sameKey_addToBill]
        · rwa [if_neg hks]
      · obtain ⟨b, hb, hk⟩ := List.any_eq_true.mp hany
        rw [List.mem_singleton.mp ht']
        refine ⟨_, List.mem_map_of_mem _ hb, ?_⟩
        by_cases hks : sameKey b s = true
        · rwa [if_pos hks, sameKey_addToBill]
        · rwa [if_neg hks]
  · rw [if_neg hany]
    have hnot : ∀ b ∈ bills, ¬ sameKey b s = true := by
      intro b hb hk
      exact hany (List.any_eq_true.mpr ⟨b, hb, hk⟩)
    refine ⟨?_, ?_, ?_⟩
    · intro b' hb'
      rcases List.mem_append.mp hb' with hb | hb
      · obtain ⟨hitems, htot, hout⟩ := hinv b' hb
        refine ⟨?_, htot, hout⟩
        have hks : ¬ sameKey b' s = true := hnot b' hb
        simp only [List.filter_append, List.filter_cons, List.filter_nil,
          hks, Bool.false_eq_true, if_false, List.append_nil, hitems]
      · rw [List.mem_singleton.mp hb]
        have hkey : sameKey (addToBill m y (emptyBill m y s) s) s = true := by
          simp [sameKey, addToBill, emptyBill]
        have hdone :
            done.filter
              (fun t => sameKey (addToBill m y (emptyBill m y s) s) t) = [] := by
          rw [List.filter_eq_nil_iff]
          intro t ht hkt
          obtain ⟨b, hb, hbt⟩ := hcomp t ht
          apply hnot b hb
          have h1 := (sameKey_iff _ _).mp hkt
          have h2 := (sameKey_iff _ _).mp hbt
          refine (sameKey_iff _ _).mpr ⟨?_, ?_⟩
          · rw [h2.1, ← h1.1]; rfl
          · rw [h2.2, ← h1.2]; rfl
        refine ⟨?_, ?_, ?_⟩
        · simp only [List.filter_append, hdone, List.filter_cons,
            List.filter_nil, hkey, if_pos, List.nil_append]
          rfl
        · simp [addToBill, emptyBill, mkBillItem]
        · simp only [addToBill_outstanding, addToBill_totalAmount]
          rfl
    · unfold billKeyDistinct
      rw [List.pairwise_append]
      refine ⟨hdis, List.pairwise_singleton _ _, ?_⟩
      intro a ha c hc hkey
      rw [List.mem_singleton.mp hc] at hkey
      apply hnot a ha
      refine (sameKey_iff _ _).mpr ⟨?_, ?_⟩
      · rw [hkey.1]; rfl
      · rw [hkey.2]; rfl
    · intro t ht
      rcases List.mem_append.mp ht with ht' | ht'
      · obtain ⟨b, hb, hk⟩ := hcomp t ht'
        exact ⟨b, List.mem_append_left _ hb, hk⟩
      · rw [List.mem_singleton.mp ht']
        refine ⟨_, List.mem_append_right _ (List.mem_singleton_self _), ?_⟩
        simp [sameKey, addToBill, emptyBill]

/-- The invariant carried over the whole fold. -/
theorem genInv_foldl (m y : Int) :
    ∀ (rest done : List SubRec) (bills : List BillRec),
      genInv m y done bills →
      genInv m y (done ++ rest) (rest.foldl (billStep m y) bills)
  | [], _, _, h => by simpa using h
  | r :: rest, done, bills, h => by
      have h2 := genInv_foldl m y rest (done ++ [r])
        (billStep m y bills r) (genInv_step m y done bills r h)
      simpa [List.append_assoc] using h2

/-- The output of a billing run satisfies the invariant with respect to
the full billing scope. -/
theorem genInv_generateBills (m y : Int) (areaIds : List Nat)
    (subs : List SubRec) :
    genInv m y (billingScope areaIds subs) (generateBills m y areaIds subs) := by
  have h0 : genInv m y [] [] := by
    refine ⟨?_, ?_, ?_⟩
    · intro b hb; cases hb
    · exact List.Pairwise.nil
    · intro s hs; cases hs
  have h := genInv_foldl m y (billingScope areaIds subs) [] [] h0
  simpa [generateBills] using h

/-- C1: for every billing run generateBills(month, year) by a manager, the
Active subscriptions in the areas of the manager are grouped by
(customer, area): each group yields exactly one Bill (the grouping keys of
the produced bills are pairwise distinct and every subscription in scope
has its bill), with one BillItem per subscription of the group in which
totalPrice = quantity * unitPrice, and immediately after generation
sum(BillItem.totalPrice) = Bill.totalAmount = Bill.outstandingAmount for
every created bill. -/
theorem billing_run_grouping_and_totals (db : Db) (managerId : Nat)
    (month year : Int) :
    (∀ b ∈ generateBillsFor db managerId month year,
        b.billItems =
          ((billingScope (managerAreaIds db managerId) db.subs).filter
            (fun s => sameKey b s)).map (mkBillItem month year)
          ∧ (∀ i ∈ b.billItems, i.totalPrice = i.quantity * i.unitPrice)
          ∧ (b.billItems.map BillItemRec.totalPrice).sum = b.totalAmount
          ∧ b.totalAmount = b.outstandingAmount)
      ∧ billKeyDistinct (generateBillsFor db managerId month year)
      ∧ (∀ s ∈ billingScope (managerAreaIds db managerId) db.subs,
          ∃ b ∈ generateBillsFor db managerId month year, sameKey b s = true) := by
  obtain ⟨hinv, hdis, hcomp⟩ :=
    genInv_generateBills month year (managerAreaIds db managerId) db.subs
  refine ⟨?_, hdis, hcomp⟩
  intro b hb
  obtain ⟨hitems, htot, hout⟩ := hinv b hb
  refine ⟨hitems, ?_, htot.symm, hout.symm⟩
  intro i hi
  rw [hitems] at hi
  obtain ⟨t, _, rfl⟩ := List.mem_map.mp hi
  simp [mkBillItem, mul_comm]

/-- C6: bill generation initialises outstandingAmount equal to totalAmount
(and, prices and quantities being nonnegative, within [0, totalAmount]),
and applying a payment of positive amount to a bill satisfying
0 ≤ outstandingAmount ≤ totalAmount keeps the invariant, the totalAmount
being untouched. -/
theorem bill_outstanding_invariant (db : Db) (managerId : Nat)
    (month year : Int) (bill : BillRec) (amount : ℚ)
    (hq : ∀ s ∈ db.subs, 0 ≤ s.price ∧ 0 ≤ s.quantity)
    (hpos : 0 < amount)
    (hlo : 0 ≤ bill.outstandingAmount)
    (hhi : bill.outstandingAmount ≤ bill.totalAmount) :
    (∀ b ∈ generateBillsFor db managerId month year,
        b.outstandingAmount = b.totalAmount
          ∧ 0 ≤ b.outstandingAmount
          ∧ b.outstandingAmount ≤ b.totalAmount)
      ∧ (0 ≤ (payBill bill amount).outstandingAmount
          ∧ (payBill bill amount).outstandingAmount
              ≤ (payBill bill amount).totalAmount
          ∧ (payBill bill amount).totalAmount = bill.totalAmount) := by
  constructor
  · intro b hb
    obtain ⟨hinv, _, _⟩ :=
      genInv_generateBills month year (managerAreaIds db managerId) db.subs
    obtain ⟨hitems, htot, hout⟩ := hinv b hb
    have hnn : 0 ≤ b.totalAmount := by
      rw [htot]
      apply List.sum_nonneg
      intro x hx
      obtain ⟨i, hi, rfl⟩ := List.mem_map.mp hx
      rw [hitems] at hi
      obtain ⟨t, ht, rfl⟩ := List.mem_map.mp hi
      have ht1 := (List.mem_filter.mp ht).1
      have ht2 := (List.mem_filter.mp ht1).1
      rw [mkBillItem_totalPrice]
      exact mul_nonneg (hq t ht2).1 (hq t ht2).2
    exact ⟨hout, hout ▸ hnn, le_of_eq hout⟩
  · have htotal : (payBill bill amount).totalAmount = bill.totalAmount := rfl
    have hout : (payBill bill amount).outstandingAmount
        = max 0 (bill.outstandingAmount - amount) := rfl
    refine ⟨?_, ?_, htotal⟩
    · rw [hout]; exact le_max_left _ _
    · rw [hout, htotal]
      apply max_le (le_trans hlo hhi)
      linarith

/-! ## Concrete fixtures used by witnesses and counterexamples -/

def pubW : PubRec := { id := 20, price := 50, isActive := true }

def addrW : AddressRec := { id := 30, userId := 10, areaId := 40, isActive := true }

def areaW : AreaRec := { id := 40, managers := [1], publications := [20] }

def subW : SubRec :=
  { id := 1, userId := 10, publicationId := 20, price := 50, quantity := 2
    startDate := some 0, endDate := none, addressId := 30, areaId := 40
    status := SubStatus.Active }

def billW : BillRec :=
  { id := 5, userId := 10, areaId := 40, billMonth := 6, billYear := 2024
    totalAmount := 100, outstandingAmount := 100, dueDate := jsDate 2024 6 15
    status := BillStatus.Unpaid, billItems := [] }

def dbW : Db :=
  { Db.empty with
    areas := [areaW], pubs := [pubW], addresses := [addrW]
    subs := [subW], bills := [billW] }

/-! ## find? lemmas for the stored-document updates -/

/-- find? over a conditional in-place update: when the update preserves the
search predicate, the found document is the updated one. -/
theorem find?_map_update (l : List BillRec) (q : BillRec → Bool)
    (upd : BillRec → BillRec) (hq : ∀ b, q (upd b) = q b) (bill : BillRec)
    (h : l.find? q = some bill) :
    (l.map (fun b => if q b = true then upd b else b)).find? q
      = some (upd bill) := by
  induction l with
  | nil => simp at h
  | cons x xs ih =>
    by_cases hx : q x = true
    · rw [List.find?_cons_of_pos _ hx] at h
      injection h with h
      subst h
      rw [List.map_cons, if_pos hx,
        List.find?_cons_of_pos _ (by rw [hq]; exact hx)]
    · rw [List.find?_cons_of_neg _ hx] at h
      rw [List.map_cons, if_neg hx, List.find?_cons_of_neg _ hx]
      exact ih h

/-- find? after replaceReq: replacing the found request by a document with
the same id makes find? return the replacement. -/
theorem find?_replaceReq (reqs : List ChangeReq) (rid : Nat)
    (r1 req : ChangeReq) (h : reqs.find? (fun r => r.id == rid) = some req)
    (hid : r1.id = req.id) :
    (replaceReq reqs r1).find? (fun r => r.id == rid) = some r1 := by
  have hreq : (req.id == rid) = true := by
    have h2 := List.find?_some h
    simpa using h2
  induction reqs with
  | nil => simp at h
  | cons x xs ih =>
    by_cases hx : (x.id == rid) = true
    · have hxr : x = req := by
        have h2 := h
        simp only [List.find?, hx] at h2
        exact Option.some.inj h2
      subst hxr
      have hx1 : (x.id == r1.id) = true := by
        rw [hid]
        simp
      have hr1 : (r1.id == rid) = true := by
        rw [hid]
        exact hx
      simp only [replaceReq, List.map_cons, if_pos hx1, List.find?, hr1]
    · rw [Bool.not_eq_true] at hx
      have h2 : xs.find? (fun r => r.id == rid) = some req := by
        simpa only [List.find?, hx] using h
      have hx1 : (x.id == r1.id) = false := by
        rw [Bool.eq_false_iff]
        intro hk
        have hk2 : x.id = req.id := by
          have hk3 : x.id = r1.id := by simpa using hk
          rw [hk3, hid]
        rw [← hk2] at hreq
        rw [hreq] at hx
        simp at hx
      have hgoal := ih h2
      simpa only [replaceReq, List.map_cons, hx1, Bool.false_eq_true,
        if_false, List.find?, hx] using hgoal

/-- C4: on a bill with positive outstanding amount, makePayment succeeds
and stores the bill with outstandingAmount = max(0, old - amount); the
status is Paid exactly when the new outstanding amount is 0 and Partially
Paid otherwise; an overpayment is clamped to 0 (not rejected) and the
totalAmount is untouched, discarding the surplus. -/
theorem payment_applied_correctly (db : Db) (userId billId : Nat)
    (amount : ℚ) (pm : String) (now : Nat) (bill : BillRec)
    (hfind : db.bills.find? (fun b => b.id == billId && b.userId == userId)
      = some bill)
    (_hpos : 0 < bill.outstandingAmount) :
    ∃ db2, makePayment db userId billId amount pm now = Except.ok db2
      ∧ db2.bills.find? (fun b => b.id == billId && b.userId == userId)
          = some (payBill bill amount)
      ∧ (payBill bill amount).outstandingAmount
          = max 0 (bill.outstandingAmount - amount)
      ∧ ((payBill bill amount).status = BillStatus.Paid
          ↔ (payBill bill amount).outstandingAmount = 0)
      ∧ ((payBill bill amount).status = BillStatus.PartiallyPaid
          ↔ (payBill bill amount).outstandingAmount ≠ 0)
      ∧ (bill.outstandingAmount < amount →
          (payBill bill amount).outstandingAmount = 0
            ∧ (payBill bill amount).status = BillStatus.Paid)
      ∧ (payBill bill amount).totalAmount = bill.totalAmount := by
  have hout : (payBill bill amount).outstandingAmount
      = max 0 (bill.outstandingAmount - amount) := rfl
  have hstatus : (payBill bill amount).status
      = (if max 0 (bill.outstandingAmount - amount) = 0 then BillStatus.Paid
         else BillStatus.PartiallyPaid) := rfl
  refine ⟨{ db with
      payments := db.payments ++
        [{ billId := billId, userId := userId, amount := amount
           paymentMethod := pm, receiptNumber := now }]
      bills := db.bills.map (fun b =>
        if b.id == billId && b.userId == userId then payBill b amount
        else b) }, ?_, ?_, hout, ?_, ?_, ?_, rfl⟩
  · unfold makePayment
    rw [hfind]
  · exact find?_map_update db.bills
      (fun b => b.id == billId && b.userId == userId)
      (fun b => payBill b amount) (fun _ => rfl) bill hfind
  · rw [hstatus, hout]
    by_cases h0 : max 0 (bill.outstandingAmount - amount) = 0
    · simp [h0]
    · simp [h0]
  · rw [hstatus, hout]
    by_cases h0 : max 0 (bill.outstandingAmount - amount) = 0
    · simp [h0]
    · simp [h0]
  · intro hov
    have h0 : max 0 (bill.outstandingAmount - amount) = 0 :=
      max_eq_left (by linarith)
    rw [hout, hstatus]
    exact ⟨h0, by simp [h0]⟩

/-- Witness for C4: a bill with outstanding 100 paid with 150 is stored
with outstanding 0 and status Paid. -/
theorem payment_applied_correctly_witness :
    (dbW.bills.find? (fun b => b.id == 5 && b.userId == 10) = some billW)
      ∧ (0:ℚ) < billW.outstandingAmount
      ∧ ∃ db2, makePayment dbW 10 5 150 "Cash" 7 = Except.ok db2
          ∧ db2.bills.find? (fun b => b.id == 5 && b.userId == 10)
              = some (payBill billW 150) := by
  refine ⟨rfl, by decide, ?_⟩
  obtain ⟨db2, h1, h2, _⟩ :=
    payment_applied_correctly dbW 10 5 150 "Cash" 7 billW rfl (by decide)
  exact ⟨db2, h1, h2⟩

/-- Witness for C6: generated bills of the fixture store satisfy the
outstanding-amount invariant and a concrete payment keeps it. -/
theorem bill_outstanding_invariant_witness :
    ((∀ s ∈ dbW.subs, 0 ≤ s.price ∧ 0 ≤ s.quantity)
        ∧ (0:ℚ) < 30
        ∧ 0 ≤ billW.outstandingAmount
        ∧ billW.outstandingAmount ≤ billW.totalAmount)
      ∧ (∀ b ∈ generateBillsFor dbW 1 6 2024,
          b.outstandingAmount = b.totalAmount ∧ 0 ≤ b.outstandingAmount
            ∧ b.outstandingAmount ≤ b.totalAmount)
      ∧ (0 ≤ (payBill billW 30).outstandingAmount
          ∧ (payBill billW 30).outstandingAmount
              ≤ (payBill billW 30).totalAmount) := by
  have h := bill_outstanding_invariant dbW 1 6 2024 billW 30
    (by decide) (by decide) (by decide) (by decide)
  exact ⟨⟨by decide, by decide, by decide, by decide⟩, h.1, h.2.1, h.2.2.1⟩

/-! ## Fixtures for the commission, schedule and delivery-status claims -/

def perW : PersonnelRec :=
  { id := 7, areasAssigned := [40], isActive := true, commissionRate := 10 }

def routeW : RouteRec :=
  { id := 9, areaId := 40, personnelId := 7, isActive := true }

def schedW : ScheduleRec :=
  { id := 3, personnelId := 7, routeId := 9, areaId := 40
    date := { year := 2024, month := 5, day := 10 }, notes := none
    status := SchedStatus.Pending }

/-- A Delivered item of schedule 3 (personnel 7), quantity 2 at price 50,
delivered on 2024-06-10 (month index 5). -/
def itemW : DeliveryItemDoc :=
  { id := 11, scheduleId := 3, subscriptionId := 1, addressId := 30
    publicationId := 20, price := 50, quantity := 2
    status := ItemStatus.Delivered
    deliveryTime := some { year := 2024, month := 5, day := 10 }
    deliveryNotes := none }

def dbC5 : Db :=
  { Db.empty with
    areas := [areaW], personnel := [perW], schedules := [schedW]
    items := [itemW] }

/-- C8 (code bug): the bill generated for billing month 6 of 2024 carries
dueDate new Date(2024, 6, 15), whose zero-based month index 6 is calendar
July, not the 15th of the billing month June (index 5) that the comment
"Due on 15th of billing month" announces. -/
theorem bill_due_date_in_following_month :
    (generateBillsFor dbW 1 6 2024).map BillRec.dueDate = [jsDate 2024 6 15]
      ∧ jsDate 2024 6 15 = { year := 2024, month := 6, day := 15 }
      ∧ jsDate 2024 (6 - 1) 15 = { year := 2024, month := 5, day := 15 }
      ∧ ({ year := 2024, month := 6, day := 15 } : JsDate)
          ≠ { year := 2024, month := 5, day := 15 } := by
  refine ⟨?_, by decide, by decide, by decide⟩
  decide

/-- C5 (code bug): with one active deliverer (commission rate 10) owning a
Delivered item of value 100 inside the period, processDelivererPayments
creates the Pending payment with amount 0, because the query filters
DeliveryItem on the non-existent field path schedule.personnelId; the sum
the comment in the code intends, joining through scheduleId, is 10. -/
theorem commission_amount_always_zero :
    processDelivererPayments dbC5 1 6 2024 =
      [{ personnelId := 7, paymentMonth := 6, paymentYear := 2024
         amount := 0, commissionRate := 10, status := PayStatus.Pending
         paymentMethod := "Bank Transfer" }]
      ∧ commissionViaScheduleJoin dbC5 7 10 6 2024 = 10 := by
  constructor
  · decide
  · have hl : dbC5.items.filter (fun it =>
        (dbC5.schedules.any (fun sc =>
          sc.id == it.scheduleId && sc.personnelId == 7))
          && it.status == ItemStatus.Delivered
          && (match it.deliveryTime with
              | some t =>
                dateLe (jsDate 2024 (6 - 1) 1) t && dateLe t (jsDate 2024 6 0)
              | none => false)) = [itemW] := by decide
    unfold commissionViaScheduleJoin
    rw [hl]
    norm_num [itemW]

/-! ## C2: customer-submitted New requests -/

def dbC2 : Db :=
  { Db.empty with areas := [areaW], pubs := [pubW], addresses := [addrW] }

/-- C2 counterexample: submitting a New request creates the subscription
with status Active, not a Pending-equivalent holding state, and while the
request is still Pending the subscription is already selected by the
billing query, contradicting the claim that it stays un-activated and
excluded from bill generation. -/
theorem new_request_subscription_already_active :
    ∃ db2 sub req,
      createSubscription dbC2 10 20 2 true 30 1 2 0 = Except.ok (db2, sub, req)
        ∧ req.status = ReqStatus.Pending
        ∧ sub.status = SubStatus.Active
        ∧ sub ∈ billingScope [40] db2.subs := by
  exact ⟨_, _, _, rfl, rfl, rfl, by decide⟩

/-- C2 amended: createSubscription materialises the Subscription tied 1:1
to the New request, but with status Active immediately; hence even while
the request is Pending (or after a rejection, which leaves the
subscription untouched) the subscription is in the scope of every billing
run over an area set containing its area. -/
theorem new_request_creates_active_subscription (db : Db)
    (userId publicationId : Nat) (quantity : Int) (pg : Bool)
    (addressId freshSubId freshReqId : Nat) (now : Int)
    (db2 : Db) (sub : SubRec) (req : ChangeReq)
    (h : createSubscription db userId publicationId quantity pg addressId
      freshSubId freshReqId now = Except.ok (db2, sub, req)) :
    sub.status = SubStatus.Active
      ∧ req.status = ReqStatus.Pending
      ∧ req.requestType = ReqType.New
      ∧ req.subscriptionId = some sub.id
      ∧ sub ∈ db2.subs
      ∧ ∀ areaIds : List Nat, areaIds.contains sub.areaId = true →
          sub ∈ billingScope areaIds db2.subs := by
  unfold createSubscription at h
  split at h
  · cases h
  · split at h
    · cases h
    · split at h
      · cases h
      · split at h
        · cases h
        · injection h with h
          injection h with hdb h
          injection h with hsub hreq
          subst hdb
          subst hsub
          subst hreq
          refine ⟨rfl, rfl, rfl, rfl, ?_, ?_⟩
          · exact List.mem_append_right _ (List.mem_singleton_self _)
          · intro areaIds hin
            unfold billingScope
            rw [List.mem_filter]
            refine ⟨List.mem_append_right _ (List.mem_singleton_self _), ?_⟩
            rw [Bool.and_eq_true]
            exact ⟨hin, rfl⟩

/-- Witness for the amended C2 at a concrete store. -/
theorem new_request_creates_active_subscription_witness :
    ∃ db2 sub req,
      createSubscription dbC2 10 20 3 true 30 1 2 0 = Except.ok (db2, sub, req)
        ∧ sub.status = SubStatus.Active
        ∧ req.status = ReqStatus.Pending
        ∧ req.subscriptionId = some sub.id
        ∧ sub ∈ db2.subs := by
  obtain ⟨h1, h2, _, h4, h5, _⟩ :=
    new_request_creates_active_subscription dbC2 10 20 3 true 30 1 2 0
      _ _ _ rfl
  exact ⟨_, _, _, rfl, h1, h2, h4, h5⟩

/-! ## C3: failure semantics of the decide operation -/

/-- A Pending New request of user 10 with no newAddressId (the customer
flow always sets one, but the field is optional in the schema). -/
def reqC3 : ChangeReq :=
  { id := 2, userId := 10, requestType := ReqType.New
    subscriptionId := none, publicationId := some 20
    newQuantity := some 2, newAddressId := none, effectiveDate := 0
    status := ReqStatus.Pending, processedBy := none, processedDate := none
    comments := none }

/-- Manager 1 controls area 40 which carries publication 20; the request
carries no resolvable newAddressId, so approving it reaches the
default-address fallback. -/
def dbC3 : Db :=
  { Db.empty with areas := [areaW], pubs := [pubW], requests := [reqC3] }

/-- C3 counterexample: approving a New request whose address reference is
missing answers with the 500 internal error, not with NotFound as the
claim states for every missing reference: the fallback lookup evaluates
Address.findOne, but the Address model is never imported by the
controller, so the handler throws a ReferenceError that the catch block
turns into a 500. -/
theorem missing_address_yields_500 :
    handleSubscriptionRequest dbC3 1 2 ReqStatus.Approved none 5
        = Except.error HErr.internal
      ∧ HErr.internal ≠ HErr.notFound := by
  exact ⟨rfl, by decide⟩

/-- C3 amended: a missing request yields NotFound; a failed area
authorization yields Forbidden; a missing address on the approved New path
yields the 500 internal error (not NotFound): the default-address fallback
references the never-imported Address model and throws a ReferenceError;
a missing subscription on the approved Update path yields NotFound; and
every failure leaves the store untouched, the transaction being
aborted. -/
theorem handle_request_failure_semantics (db : Db) (managerId rid : Nat)
    (decision : ReqStatus) (comments : Option String) (now : Int) :
    (findReq db rid = none →
        handleSubscriptionRequest db managerId rid decision comments now
          = Except.error HErr.notFound)
      ∧ (∀ req, findReq db rid = some req →
          decideArea db managerId req = Except.ok none →
          handleSubscriptionRequest db managerId rid decision comments now
            = Except.error HErr.forbidden)
      ∧ (∀ req area, findReq db rid = some req →
          decideArea db managerId req = Except.ok (some area) →
          decision = ReqStatus.Approved → req.requestType = ReqType.New →
          findAddr db req.newAddressId = none →
          handleSubscriptionRequest db managerId rid decision comments now
            = Except.error HErr.internal)
      ∧ (∀ req area, findReq db rid = some req →
          decideArea db managerId req = Except.ok (some area) →
          decision = ReqStatus.Approved → req.requestType = ReqType.Update →
          findSub db req.subscriptionId = none →
          handleSubscriptionRequest db managerId rid decision comments now
            = Except.error HErr.notFound)
      ∧ (∀ e, handleSubscriptionRequest db managerId rid decision comments now
            = Except.error e →
          runHandleSubscriptionRequest db managerId rid decision comments now = db) := by
  refine ⟨?_, ?_, ?_, ?_, ?_⟩
  · intro h
    simp only [handleSubscriptionRequest, h]
  · intro req hfind harea
    simp only [handleSubscriptionRequest, hfind, harea]
  · intro req area hfind harea hdec hty haddr
    subst hdec
    simp only [handleSubscriptionRequest, hfind, harea, hty, haddr, reduceIte]
  · intro req area hfind harea hdec hty hsub
    subst hdec
    simp only [handleSubscriptionRequest, hfind, harea, hty, hsub, reduceIte]
  · intro e h
    unfold runHandleSubscriptionRequest
    rw [h]

/-- Witness for the amended C3: the missing-address path at the concrete
store, with the store left unchanged. -/
theorem handle_request_failure_semantics_witness :
    handleSubscriptionRequest dbC3 1 2 ReqStatus.Approved none 5
        = Except.error HErr.internal
      ∧ runHandleSubscriptionRequest dbC3 1 2 ReqStatus.Approved none 5
          = dbC3 := by
  have h := handle_request_failure_semantics dbC3 1 2 ReqStatus.Approved none 5
  have hbad := h.2.2.1 reqC3 areaW rfl rfl rfl rfl rfl
  exact ⟨hbad, h.2.2.2.2 HErr.internal hbad⟩

/-! ## C7: re-deciding an already processed request -/

/-- A Cancel request that has already been Approved (processedBy 1 at
time 50). -/
def reqC7 : ChangeReq :=
  { id := 2, userId := 10, requestType := ReqType.Cancel
    subscriptionId := some 1, publicationId := none
    newQuantity := none, newAddressId := none, effectiveDate := 99
    status := ReqStatus.Approved, processedBy := some 1
    processedDate := some 50, comments := none }

def dbC7 : Db :=
  { Db.empty with areas := [areaW], subs := [subW], requests := [reqC7] }

/-- C7 counterexample: the handler has no guard on the current request
status; a request that is already Approved is processed again, here
flipped to Rejected with fresh processedDate, contradicting the claim
that a decided request is never mutated by a later decide call. -/
theorem approved_request_redecided :
    (findReq dbC7 2).map ChangeReq.status = some ReqStatus.Approved
      ∧ ∃ db2,
          handleSubscriptionRequest dbC7 1 2 ReqStatus.Rejected none 60
              = Except.ok db2
            ∧ (findReq db2 2).map ChangeReq.status = some ReqStatus.Rejected := by
  exact ⟨rfl, _, rfl, rfl⟩

/-- C7 amended: the handler never inspects the current status of the
request; any found request whose area authorization succeeds is processed
again — in particular a request that is already Approved or Rejected is
mutated by a later call (its status, processedBy, processedDate and
comments are overwritten; only the New-approval path is guarded against
creating a second subscription, by the resolvable subscriptionId). -/
theorem handle_request_ignores_prior_status (db : Db) (managerId rid : Nat)
    (comments : Option String) (now : Int) (req : ChangeReq) (area : AreaRec)
    (hfind : findReq db rid = some req)
    (_hterm : req.status ≠ ReqStatus.Pending)
    (harea : decideArea db managerId req = Except.ok (some area)) :
    ∃ db2,
      handleSubscriptionRequest db managerId rid ReqStatus.Rejected comments now
          = Except.ok db2
        ∧ findReq db2 rid = some { req with
            status := ReqStatus.Rejected,
            processedBy := some managerId, processedDate := some now,
            comments := comments } := by
  refine ⟨{ db with requests := replaceReq db.requests { req with
      status := ReqStatus.Rejected,
      processedBy := some managerId, processedDate := some now,
      comments := comments } }, ?_, ?_⟩
  · simp only [handleSubscriptionRequest, hfind, harea]
    rw [if_neg (show ¬ (ReqStatus.Rejected = ReqStatus.Approved) by decide)]
  · exact find?_replaceReq db.requests rid _ req hfind rfl

/-- Witness for the amended C7 at the concrete store. -/
theorem handle_request_ignores_prior_status_witness :
    ∃ db2,
      handleSubscriptionRequest dbC7 1 2 ReqStatus.Rejected none 60
          = Except.ok db2
        ∧ findReq db2 2 = some { reqC7 with
            status := ReqStatus.Rejected,
            processedBy := some 1, processedDate := some 60,
            comments := none } := by
  exact handle_request_ignores_prior_status dbC7 1 2 none 60 reqC7 areaW
    rfl (by decide) rfl

/-! ## C9: schedule materialisation -/

/-- An Active subscription whose stored quantity is 0 (the schema default
is 1 and no write path stores 0, but the schema puts no lower bound on the
Number field, so 0 is a storable value). -/
def subZ : SubRec :=
  { id := 2, userId := 10, publicationId := 20, price := 50, quantity := 0
    startDate := some 0, endDate := none, addressId := 30, areaId := 40
    status := SubStatus.Active }

def dbC9 : Db :=
  { Db.empty with
    areas := [areaW], subs := [subZ], personnel := [perW], routes := [routeW] }

/-- C9 counterexample: createSchedule materialises the delivery item of a
quantity-0 Active subscription with quantity 1 (the source computes
`sub.quantity || 1`), not with the quantity of the subscription as the
claim states. -/
theorem schedule_item_quantity_defaulted :
    subZ.quantity = 0
      ∧ ∃ db2,
          createSchedule dbC9 1 7 { year := 2024, month := 5, day := 10 }
              40 9 none 3 = Except.ok db2
            ∧ db2.items.map DeliveryItemDoc.quantity = [1]
            ∧ (1 : ℚ) ≠ 0 := by
  exact ⟨rfl, _, rfl, rfl, by norm_num⟩

/-- C9 amended: on a validated input createSchedule atomically inserts one
DeliverySchedule with status Pending and exactly one DeliveryItem per
Active subscription of the area, each with status Pending and with the
quantity of the subscription unless that quantity is 0 (falsy), in which
case the item quantity is 1; on any failure the store is unchanged. -/
theorem schedule_materialisation (db : Db) (managerId personnelId : Nat)
    (date : JsDate) (areaId routeId : Nat) (notes : Option String)
    (fid : Nat) (area : AreaRec) (per : PersonnelRec) (route : RouteRec)
    (hare : db.areas.find?
        (fun a => a.id == areaId && a.managers.contains managerId)
      = some area)
    (hper : db.personnel.find?
        (fun p => p.id == personnelId && p.areasAssigned.contains areaId
          && p.isActive)
      = some per)
    (hrou : db.routes.find?
        (fun r => r.id == routeId && r.areaId == areaId
          && r.personnelId == personnelId && r.isActive)
      = some route) :
    ∃ db2,
      createSchedule db managerId personnelId date areaId routeId notes fid
          = Except.ok db2
        ∧ db2.schedules = db.schedules ++
            [{ id := fid, personnelId := personnelId, routeId := routeId,
               areaId := areaId, date := date, notes := notes,
               status := SchedStatus.Pending }]
        ∧ db2.items = db.items ++ scheduleItems db fid areaId
        ∧ (∀ it ∈ scheduleItems db fid areaId,
            it.status = ItemStatus.Pending ∧ it.scheduleId = fid
              ∧ ∃ s, s ∈ db.subs ∧ s.areaId = areaId
                  ∧ s.status = SubStatus.Active
                  ∧ it.subscriptionId = s.id
                  ∧ it.quantity
                      = (if s.quantity = (0:ℚ) then (1:ℚ) else s.quantity))
        ∧ (scheduleItems db fid areaId).map DeliveryItemDoc.subscriptionId
            = (db.subs.filter
                (fun s => s.areaId == areaId
                  && s.status == SubStatus.Active)).map SubRec.id
        ∧ (∀ (dbE : Db) (e : HErr),
            createSchedule dbE managerId personnelId date areaId routeId
                notes fid = Except.error e →
              runCreateSchedule dbE managerId personnelId date areaId routeId
                notes fid = dbE) := by
  refine ⟨{ db with
      schedules := db.schedules ++
        [{ id := fid, personnelId := personnelId, routeId := routeId,
           areaId := areaId, date := date, notes := notes,
           status := SchedStatus.Pending }],
      items := db.items ++ scheduleItems db fid areaId },
    ?_, rfl, rfl, ?_, ?_, ?_⟩
  · simp only [createSchedule, hare, hper, hrou]
  · intro it hit
    unfold scheduleItems at hit
    obtain ⟨s, hs, rfl⟩ := List.mem_map.mp hit
    have hs1 := (List.mem_filter.mp hs).1
    have hs2 := (List.mem_filter.mp hs).2
    rw [Bool.and_eq_true] at hs2
    refine ⟨rfl, rfl, s, hs1, ?_, ?_, rfl, rfl⟩
    · have := hs2.1
      simpa using this
    · have := hs2.2
      simpa using this
  · unfold scheduleItems
    rw [List.map_map]
    rfl
  · intro dbE e h
    unfold runCreateSchedule
    rw [h]

/-- Witness for the amended C9 at the concrete store: the quantity-0
subscription yields one Pending item with quantity 1. -/
theorem schedule_materialisation_witness :
    ∃ db2,
      createSchedule dbC9 1 7 { year := 2024, month := 5, day := 10 }
          40 9 none 3 = Except.ok db2
        ∧ db2.items = dbC9.items ++ scheduleItems dbC9 3 40
        ∧ ∀ it ∈ scheduleItems dbC9 3 40, it.status = ItemStatus.Pending := by
  obtain ⟨db2, h1, _, h3, h4, _, _⟩ :=
    schedule_materialisation dbC9 1 7 { year := 2024, month := 5, day := 10 }
      40 9 none 3 areaW perW routeW rfl rfl rfl
  exact ⟨db2, h1, h3, fun it hit => (h4 it hit).1⟩

/-! ## C10: delivery item status updates -/

def dbC10 : Db :=
  { Db.empty with schedules := [schedW], items := [itemW] }

/-- C10 counterexample: item 11 is already Delivered, yet a later
updateDeliveryStatus call by the owning deliverer overwrites its status
with Failed, contradicting the claim that a terminal status is never
changed again. -/
theorem delivered_item_overwritten :
    dbC10.items.map DeliveryItemDoc.status = [ItemStatus.Delivered]
      ∧ ∃ db2,
          updateDeliveryStatus dbC10 7 11 ItemStatus.Failed none
              { year := 2024, month := 5, day := 11 } = Except.ok db2
            ∧ db2.items.map DeliveryItemDoc.status = [ItemStatus.Failed] := by
  exact ⟨rfl, _, rfl, rfl⟩

/-- find? after the conditional item update of updateDeliveryStatus. -/
theorem find?_map_update_item (l : List DeliveryItemDoc)
    (q : DeliveryItemDoc → Bool) (upd : DeliveryItemDoc → DeliveryItemDoc)
    (hq : ∀ it, q (upd it) = q it) (item : DeliveryItemDoc)
    (h : l.find? q = some item) :
    (l.map (fun it => if q it = true then upd it else it)).find? q
      = some (upd item) := by
  induction l with
  | nil => simp at h
  | cons x xs ih =>
    by_cases hx : q x = true
    · rw [List.find?_cons_of_pos _ hx] at h
      injection h with h
      subst h
      rw [List.map_cons, if_pos hx,
        List.find?_cons_of_pos _ (by rw [hq]; exact hx)]
    · rw [List.find?_cons_of_neg _ hx] at h
      rw [List.map_cons, if_neg hx, List.find?_cons_of_neg _ hx]
      exact ih h

/-- C10 amended: updateDeliveryStatus rejects only an invalid target
status (400) and an item outside the schedules of the acting deliverer
(403); it never inspects the current status of the item, so a stored
terminal status (Delivered, Failed or Skipped) is overwritten by any later
authorized update request. -/
theorem delivery_status_update_unguarded (db : Db)
    (personnelId itemId : Nat) (newStatus : ItemStatus)
    (notes : Option String) (now : JsDate)
    (item : DeliveryItemDoc) (sched : ScheduleRec)
    (hvalid : newStatus ≠ ItemStatus.Pending)
    (_hterm : item.status ≠ ItemStatus.Pending)
    (hfind : db.items.find? (fun it => it.id == itemId) = some item)
    (hauth : db.schedules.find?
        (fun sc => sc.id == item.scheduleId && sc.personnelId == personnelId)
      = some sched) :
    ∃ db2,
      updateDeliveryStatus db personnelId itemId newStatus notes now
          = Except.ok db2
        ∧ db2.items.find? (fun it => it.id == itemId)
            = some { item with
                     status := newStatus, deliveryNotes := notes,
                     deliveryTime := some now } := by
  refine ⟨{ db with items := db.items.map (fun it =>
      if it.id == itemId then
        { it with
          status := newStatus, deliveryNotes := notes,
          deliveryTime := some now }
      else it) }, ?_, ?_⟩
  · simp only [updateDeliveryStatus, hfind, hauth]
    rw [if_neg hvalid]
  · exact find?_map_update_item db.items (fun it => it.id == itemId)
      (fun it => { it with
        status := newStatus, deliveryNotes := notes,
        deliveryTime := some now })
      (fun _ => rfl) item hfind

/-- Witness for the amended C10 at the concrete store. -/
theorem delivery_status_update_unguarded_witness :
    ∃ db2,
      updateDeliveryStatus dbC10 7 11 ItemStatus.Failed none
          { year := 2024, month := 5, day := 11 } = Except.ok db2
        ∧ db2.items.find? (fun it => it.id == 11)
            = some { itemW with
                     status := ItemStatus.Failed,
                     deliveryNotes := none,
                     deliveryTime :=
                       some { year := 2024, month := 5, day := 11 } } := by
  exact delivery_status_update_unguarded dbC10 7 11 ItemStatus.Failed none
    { year := 2024, month := 5, day := 11 } itemW schedW
    (by decide) (by decide) rfl rfl
